import Mathlib

/-!
A shallow embedding of the MonadJS `Maybe` library (`MonadJS.js`) and proofs
about its combinators.

JavaScript values relevant to the library are modelled by the inductive type
`JSVal`: the three absence sentinels (`null`, `undefined`, `NaN`), numbers,
strings, booleans, arrays, and the two Maybe variants — a `Just` wrapper
object and the shared `Nothing` singleton object.  JavaScript functions that
may throw are modelled as Lean functions into `Except String _`, where
`Except.error` is a thrown exception carrying the JS string conversion of the
thrown value.
-/

namespace MonadJS

/-- Model of the JavaScript values the library manipulates.  `just` and
`nothingObj` model the objects produced by the `Just` constructor and the
shared `Nothing` object; numbers other than `NaN` are modelled as integers
(the library's own logic never depends on fractional values). -/
inductive JSVal : Type where
  | vnull : JSVal
  | vundefined : JSVal
  | vnan : JSVal
  | num : Int → JSVal
  | str : String → JSVal
  | bool : Bool → JSVal
  | arr : List JSVal → JSVal
  | just : JSVal → JSVal
  | nothingObj : JSVal

/-- The test `a === null` from the `Maybe` constructor. -/
def jsEqNull : JSVal → Bool
  | .vnull => true
  | _ => false

/-- The test `a === undefined` from the `Maybe` constructor. -/
def jsEqUndefined : JSVal → Bool
  | .vundefined => true
  | _ => false

/-- The test `a !== a` from the `Maybe` constructor: in JavaScript it holds
exactly of `NaN`; every other value (objects included, since `a` is compared
with itself) is strictly equal to itself. -/
def jsSelfUnequal : JSVal → Bool
  | .vnan => true
  | _ => false

/-- The full emptiness test of the `Maybe` constructor:
`a === null || a === undefined || a !== a`. -/
def isAbsent (a : JSVal) : Bool :=
  jsEqNull a || jsEqUndefined a || jsSelfUnequal a

/-- Source line 56:
`function Maybe(a) { return (a === null || a === undefined || a !== a) ? Nothing : new Just(a); }` -/
def Maybe (a : JSVal) : JSVal :=
  if isAbsent a then .nothingObj else .just a

/-- Source line 73: `Maybe.isJust = function(a) { return a.constructor === Just ? true : false; }`.
The constructor test holds exactly of objects built by `new Just(_)`.  In
JavaScript the property access `a.constructor` throws a `TypeError` when `a`
is `null` or `undefined`; the model returns `false` there instead, so every
statement about a combinator built on `isJust` is restricted to inputs
carrying a Maybe tag, where the two behaviours agree. -/
def Maybe.isJust : JSVal → Bool
  | .just _ => true
  | _ => false

/-- Source line 80: `Maybe.isNothing = function(a) { return a === Nothing ? true : false; }`.
Reference equality with the shared `Nothing` singleton is a tag test. -/
def Maybe.isNothing : JSVal → Bool
  | .nothingObj => true
  | _ => false

/-- JavaScript string conversion, as used by `a + ' is Nothing'`: objects
convert to `"[object Object]"`, arrays join their elements with commas,
rendering `null` and `undefined` elements as empty strings. -/
def jsToString : JSVal → String
  | .vnull => "null"
  | .vundefined => "undefined"
  | .vnan => "NaN"
  | .num n => toString n
  | .str s => s
  | .bool b => if b then "true" else "false"
  | .arr xs => String.intercalate ","
      (xs.attach.map (fun x =>
        if jsEqNull x.1 || jsEqUndefined x.1 then "" else jsToString x.1))
  | .just _ => "[object Object]"
  | .nothingObj => "[object Object]"
decreasing_by
  simp only [JSVal.arr.sizeOf_spec]
  have h := List.sizeOf_lt_of_mem x.2
  omega

/-- Dispatch of the `bind` method on a Maybe value.  The callback receives
the receiver (JavaScript `this`) and the wrapped value, and may throw.
Source line 160, on a `Just`:
`this.bind = function(fn) { try { return fn.call(this, a); } catch(e) { return this.fail(e) } };`
with `this.fail = function(e) { return Nothing; };` (line 162).
Source line 182, on `Nothing`: `bind: function() { return this; }`.
On anything that is not a Maybe, property access `.bind` yields `undefined`
and the call throws a `TypeError`. -/
def bind (self : JSVal) (fn : JSVal → JSVal → Except String JSVal) :
    Except String JSVal :=
  match self with
  | .just a =>
    match fn self a with
    | .ok r => .ok r
    | .error _ => .ok .nothingObj
  | .nothingObj => .ok .nothingObj
  | _ => .error "TypeError: self.bind is not a function"

/-- Dispatch of the `chain` method on a Maybe value.  The callback receives
only the receiver (`this`) and may throw.
Source line 161, on a `Just`: `this.chain = function(fn) { return fn.call(this); };`
(no `try`/`catch`).
Source line 183, on `Nothing`: `chain: function() { return this; }`. -/
def chain (self : JSVal) (fn : JSVal → Except String JSVal) :
    Except String JSVal :=
  match self with
  | .just _ => fn self
  | .nothingObj => .ok .nothingObj
  | _ => .error "TypeError: self.chain is not a function"

/-- Source line 159, the `inject` method of a `Just`:
`this.inject = function(a) { return Maybe(a); };`. -/
def Just.inject (a : JSVal) : JSVal := Maybe a

/-- Source line 181, the `inject` method of `Nothing`:
`inject: function(a) { return Maybe(a); },`. -/
def Nothing.inject (a : JSVal) : JSVal := Maybe a

/-- Dispatch of the `inject` method on a Maybe value. -/
def inject (self a : JSVal) : Except String JSVal :=
  match self with
  | .just _ => .ok (Just.inject a)
  | .nothingObj => .ok (Nothing.inject a)
  | _ => .error "TypeError: self.inject is not a function"

/-- Source lines 88-96:
`Maybe.fromJust = function(a) { if (this.isJust(a)) { return a.bind(function(a) { return a; }); } else if (this.isNothing(a)) { throw a + ' is Nothing'; } else { throw a + ' is not a Maybe'; } };`
A thrown exception is modelled as `Except.error` of the thrown string. -/
def Maybe.fromJust (a : JSVal) : Except String JSVal :=
  if Maybe.isJust a then
    bind a (fun _this x => .ok x)
  else if Maybe.isNothing a then
    .error (jsToString a ++ " is Nothing")
  else
    .error (jsToString a ++ " is not a Maybe")

/-- Source line 66:
`Maybe.maybe = function(b, fn, a) { return this.isJust(a) ? fn(this.fromJust(a)) : b; };`
The callback may itself throw, and no interception is performed here. -/
def Maybe.maybe (b : JSVal) (fn : JSVal → Except String JSVal) (a : JSVal) :
    Except String JSVal :=
  if Maybe.isJust a then (Maybe.fromJust a).bind fn else .ok b

/-- Source line 105:
`Maybe.fromMaybe = function(b, a) { return this.isJust(a) ? this.fromJust(a) : b; };` -/
def Maybe.fromMaybe (b a : JSVal) : Except String JSVal :=
  if Maybe.isJust a then Maybe.fromJust a else .ok b

/-- Source line 113:
`Maybe.listToMaybe = function(a) { return a.length === 0 ? Nothing : Maybe(a[0]); };`
A JavaScript array argument is modelled by its list of elements; indexing
`a[0]` on an empty array would produce `undefined`. -/
def Maybe.listToMaybe (a : List JSVal) : JSVal :=
  if a.length = 0 then .nothingObj else Maybe (a.headD .vundefined)

/-- Source line 121:
`Maybe.maybeToList = function(a) { return this.isJust(a) ? [this.fromJust(a)] : []; };` -/
def Maybe.maybeToList (a : JSVal) : Except String (List JSVal) :=
  if Maybe.isJust a then (Maybe.fromJust a).map (fun x => [x]) else .ok []

/-- JavaScript `Array.prototype.map` with a callback that may throw: the
first exception thrown by the callback aborts the whole traversal. -/
def arrayMapE (f : JSVal → Except String JSVal) :
    List JSVal → Except String (List JSVal)
  | [] => .ok []
  | x :: xs => do
    let y ← f x
    let ys ← arrayMapE f xs
    pure (y :: ys)

/-- Source line 129:
`Maybe.catMaybes = function(a) { return a.filter(function(b) { return Maybe.isJust(b) ? true : false; }).map(function(b) { return Maybe.fromJust(b) }); };` -/
def Maybe.catMaybes (a : List JSVal) : Except String (List JSVal) :=
  arrayMapE (fun b => Maybe.fromJust b)
    (a.filter (fun b => if Maybe.isJust b then true else false))

/-- Source line 139:
`Maybe.mapMaybe = function(fn, a) { return a.filter(function(b) { return Maybe.isJust(fn(b)) ? true : false; }).map(function(b) { return Maybe.fromJust(fn(b)); }); };` -/
def Maybe.mapMaybe (fn : JSVal → JSVal) (a : List JSVal) :
    Except String (List JSVal) :=
  arrayMapE (fun b => Maybe.fromJust (fn b))
    (a.filter (fun b => if Maybe.isJust (fn b) then true else false))

/-- The method call `x.map(fn)` performed by `Maybe.fmap` on the wrapped
value: element-wise map when `x` is an array, otherwise a `TypeError`
(`x.map` is `undefined` for every other value in the model's domain). -/
def jsMapMethod (x : JSVal) (fn : JSVal → JSVal) : Except String JSVal :=
  match x with
  | .arr xs => .ok (.arr (xs.map fn))
  | _ => .error "TypeError: x.map is not a function"

/-- Source line 149:
`Maybe.fmap = function(fn, a) { return Maybe.isJust(a) ? Maybe.fromJust(a).map(fn) : Nothing; };` -/
def Maybe.fmap (fn : JSVal → JSVal) (a : JSVal) : Except String JSVal :=
  if Maybe.isJust a then
    (Maybe.fromJust a).bind (fun x => jsMapMethod x fn)
  else
    .ok .nothingObj

/-- JavaScript multiplication `a * k` by an integer constant, as used by the
callbacks in the repository's tests (`a * 2`, `a * 100`): numbers multiply,
booleans and `null` coerce to numbers, strings coerce through their numeric
value (empty and blank strings to `0`, integer numerals to their value,
anything else to `NaN`), and the remaining modelled values (`undefined`,
`NaN`, objects) coerce to `NaN`. -/
def jsTimes (k : Int) : JSVal → JSVal
  | .num n => .num (n * k)
  | .bool b => .num (if b then k else 0)
  | .vnull => .num 0
  | .str s =>
    let t := s.trim
    if t = "" then .num 0
    else
      match t.toInt? with
      | some n => .num (n * k)
      | none => .vnan
  | _ => .vnan

/-- The Maybe-returning callback of `testMaybe` (source line 204):
`var fnM = function(a) { var b = Maybe(a); if (b.isJust()) { return b.inject(a * 2); } return b; };`
When `b` is a `Just`, `b.inject(a * 2)` dispatches to `Just.inject`. -/
def fnM (a : JSVal) : JSVal :=
  let b := Maybe a
  if Maybe.isJust b then Just.inject (jsTimes 2 a) else b

/-- A value is a Maybe of the data model: either the `Nothing` object or a
`Just` whose payload is not itself an absence sentinel (the smart
constructor never builds a `Just` of a sentinel). -/
def validMaybe : JSVal → Bool
  | .nothingObj => true
  | .just v => !(isAbsent v)
  | _ => false

/-- A value carrying one of the two Maybe variant tags: an object built by
`new Just(_)` (whatever its payload) or the shared `Nothing` object.  On
such values the property accesses performed by the combinators cannot
throw. -/
def isMaybeVal (m : JSVal) : Bool := Maybe.isJust m || Maybe.isNothing m

/-! Helper lemmas shared by the claim theorems. -/

theorem isJust_iff (x : JSVal) : Maybe.isJust x = true ↔ ∃ v, x = .just v := by
  cases x <;> simp [Maybe.isJust]

theorem ternary_true_false (b : Bool) : (if b then true else false) = b := by
  cases b <;> rfl

theorem validMaybe_cases (m : JSVal) (h : validMaybe m = true) :
    m = .nothingObj ∨ ∃ v, m = .just v ∧ isAbsent v = false := by
  cases m <;> simp_all [validMaybe]

theorem isMaybeVal_cases (m : JSVal) (h : isMaybeVal m = true) :
    m = .nothingObj ∨ ∃ v, m = .just v := by
  cases m <;> simp_all [isMaybeVal, Maybe.isJust, Maybe.isNothing]

theorem maybe_just (b : JSVal) (fn : JSVal → Except String JSVal) (v : JSVal) :
    Maybe.maybe b fn (.just v) = fn v := rfl

theorem fromJust_just (x : JSVal) : Maybe.fromJust (.just x) = .ok x := rfl

theorem arrayMapE_ok_of_ok (f : JSVal → Except String JSVal) (l : List JSVal)
    (h : ∀ x ∈ l, ∃ y, f x = .ok y) : ∃ r, arrayMapE f l = .ok r := by
  induction l with
  | nil => exact ⟨[], rfl⟩
  | cons x xs ih =>
    obtain ⟨y, hy⟩ := h x (by simp)
    obtain ⟨r, hr⟩ := ih (fun z hz => h z (by simp [hz]))
    refine ⟨y :: r, ?_⟩
    simp only [arrayMapE, hy, hr]
    rfl

/-- Claim C1: for every input value `a`, the smart constructor `Maybe a` is
total and returns the `Nothing` object if and only if `a` is the `null`
sentinel, the `undefined` sentinel, or a value unequal to itself (`NaN`);
for every other `a` it returns `Just a`.  Totality is witnessed by the last
conjunct: the result is always one of the two variants. -/
theorem maybe_classification (a : JSVal) :
    (Maybe a = .nothingObj ↔
      (jsEqNull a = true ∨ jsEqUndefined a = true ∨ jsSelfUnequal a = true)) ∧
    ((jsEqNull a = false ∧ jsEqUndefined a = false ∧ jsSelfUnequal a = false) →
      Maybe a = .just a) ∧
    (Maybe a = .nothingObj ∨ Maybe a = .just a) := by
  cases a <;> simp [Maybe, isAbsent, jsEqNull, jsEqUndefined, jsSelfUnequal]

/-- Witness for C1 at the concrete inputs `NaN` and `3`. -/
theorem maybe_classification_witness :
    Maybe .vnan = .nothingObj ∧ Maybe (.num 3) = .just (.num 3) :=
  ⟨(maybe_classification .vnan).1.mpr (Or.inr (Or.inr rfl)),
   (maybe_classification (.num 3)).2.1 ⟨rfl, rfl, rfl⟩⟩

/-- Claim C3: `bind` on `Just x` invokes the callback with the wrapped value
and returns its result as-is; if the callback throws, the exception is
intercepted and converted to `Nothing` (via `this.fail`); `bind` on
`Nothing` returns `Nothing` for every callback, without invoking it. -/
theorem bind_dispatch (x : JSVal) (fn : JSVal → JSVal → Except String JSVal)
    (r : JSVal) (e : String) :
    (fn (.just x) x = .ok r → bind (.just x) fn = .ok r) ∧
    (fn (.just x) x = .error e → bind (.just x) fn = .ok .nothingObj) ∧
    (∀ gn, bind .nothingObj gn = .ok .nothingObj) := by
  refine ⟨fun h => ?_, fun h => ?_, fun gn => rfl⟩ <;> simp [bind, h]

/-- Witness for C3: doubling succeeds on `Just 2`, a throwing callback is
converted to `Nothing`. -/
theorem bind_dispatch_witness :
    bind (.just (.num 2)) (fun _this v => .ok (Maybe (jsTimes 2 v)))
      = .ok (.just (.num 4)) ∧
    bind (.just (.num 2)) (fun _this _v => .error "boom")
      = .ok .nothingObj :=
  ⟨(bind_dispatch (.num 2) (fun _this v => .ok (Maybe (jsTimes 2 v)))
      (.just (.num 4)) "boom").1 rfl,
   (bind_dispatch (.num 2) (fun _this _v => .error "boom")
      (.just (.num 4)) "boom").2.1 rfl⟩

/-- Claim C5, counterexample: the smart constructor is not idempotent; at
the concrete input `2`, `Maybe (Maybe 2)` is `Just (Just 2)`, which differs
from `Maybe 2 = Just 2`. -/
theorem maybe_not_idempotent : Maybe (Maybe (.num 2)) ≠ Maybe (.num 2) := by
  simp [Maybe, isAbsent, jsEqNull, jsEqUndefined, jsSelfUnequal]

/-- Claim C5 as amended: applying the smart constructor to any result of the
smart constructor (a `Just` object or the `Nothing` object) always yields a
`Just` wrapping that result — neither variant is an absence sentinel, so the
classification is `Present`, but the value is double-wrapped rather than
returned unchanged. -/
theorem maybe_wraps_maybe (v : JSVal) :
    Maybe (Maybe v) = .just (Maybe v) ∧
    Maybe.isJust (Maybe (Maybe v)) = true := by
  unfold Maybe
  split <;> exact ⟨rfl, rfl⟩

/-- Claim C8: `chain` applied to `Nothing` short-circuits identically to
`bind`: it returns `Nothing` for every callback, without invoking it. -/
theorem chain_empty_short_circuits (fn : JSVal → Except String JSVal)
    (gn : JSVal → JSVal → Except String JSVal) :
    chain .nothingObj fn = .ok .nothingObj ∧
    chain .nothingObj fn = bind .nothingObj gn :=
  ⟨rfl, rfl⟩

/-- Claim C9: unlike `bind` on the same variant, `chain` on a `Just`
performs no fault interception: a callback that throws propagates its
exception to the caller uncaught, while the same exception thrown under
`bind` is converted to `Nothing`. -/
theorem chain_no_fault_interception (x : JSVal)
    (fn : JSVal → Except String JSVal)
    (gn : JSVal → JSVal → Except String JSVal) (e : String)
    (hf : fn (.just x) = .error e) (hg : gn (.just x) x = .error e) :
    chain (.just x) fn = .error e ∧
    chain (.just x) fn ≠ .ok .nothingObj ∧
    bind (.just x) gn = .ok .nothingObj := by
  refine ⟨by simpa [chain] using hf, ?_, by simp [bind, hg]⟩
  simp [chain, hf]

/-- Witness for C9 at `Just 1` with a callback that throws `"boom"`. -/
theorem chain_no_fault_interception_witness :
    chain (.just (.num 1)) (fun _this => .error "boom") = .error "boom" ∧
    bind (.just (.num 1)) (fun _this _v => .error "boom") = .ok .nothingObj :=
  ⟨(chain_no_fault_interception (.num 1) (fun _this => .error "boom")
      (fun _this _v => .error "boom") "boom" rfl rfl).1,
   (chain_no_fault_interception (.num 1) (fun _this => .error "boom")
      (fun _this _v => .error "boom") "boom" rfl rfl).2.2⟩

/-- Claim C10: `inject` behaves identically on both variants and re-applies
the smart constructor: on any receiver variant and any argument `a` it
returns `Maybe a`; injecting a sentinel yields `Nothing` even on a `Just`
receiver, and injecting a non-sentinel on the `Nothing` receiver yields
`Just a`. -/
theorem inject_reclassifies (x a : JSVal) :
    inject (.just x) a = .ok (Maybe a) ∧
    inject .nothingObj a = .ok (Maybe a) ∧
    (isAbsent a = true →
      inject (.just x) a = .ok .nothingObj ∧
      inject .nothingObj a = .ok .nothingObj) ∧
    (isAbsent a = false →
      inject (.just x) a = .ok (.just a) ∧
      inject .nothingObj a = .ok (.just a)) := by
  refine ⟨rfl, rfl, fun h => ?_, fun h => ?_⟩ <;>
    simp [inject, Just.inject, Nothing.inject, Maybe, h]

/-- Witness for C10: injecting `null` on `Just 1` yields `Nothing`;
injecting `5` on `Nothing` yields `Just 5`. -/
theorem inject_reclassifies_witness :
    inject (.just (.num 1)) .vnull = .ok .nothingObj ∧
    inject .nothingObj (.num 5) = .ok (.just (.num 5)) :=
  ⟨((inject_reclassifies (.num 1) .vnull).2.2.1 rfl).1,
   ((inject_reclassifies (.num 1) (.num 5)).2.2.2 rfl).2⟩

/-- Claim C4, counterexample: `fmap` on a `Just` does not yield a `Present`
result; at the concrete input `fmap (· * 100) (Just [1,2,3,4,5])` the code
returns the raw mapped array `[100,200,300,400,500]`, which is not a `Just`
(the code never rewraps the result of `payload.map(fn)` in a Maybe). -/
theorem fmap_result_not_present :
    Maybe.fmap (jsTimes 100)
        (.just (.arr [.num 1, .num 2, .num 3, .num 4, .num 5]))
      = .ok (.arr [.num 100, .num 200, .num 300, .num 400, .num 500]) ∧
    Maybe.isJust (.arr [.num 100, .num 200, .num 300, .num 400, .num 500])
      = false :=
  ⟨rfl, rfl⟩

/-- Claim C4 as amended: `fmap fn (Just (arr xs))` returns the bare
element-wise mapped array `arr (xs.map fn)` without rewrapping it in a
Maybe (so on the example it yields the raw `[100,200,300,400,500]`, not a
`Present`), and `fmap fn Nothing = Nothing`. -/
theorem fmap_maps_payload (fn : JSVal → JSVal) (xs : List JSVal) :
    Maybe.fmap fn (.just (.arr xs)) = .ok (.arr (xs.map fn)) ∧
    Maybe.fmap fn .nothingObj = .ok .nothingObj :=
  ⟨rfl, rfl⟩

/-- Claim C6: `maybeToList` maps `Just x` to `[x]` and `Nothing` to `[]`,
and for every valid Maybe `m` (a `Just` of a non-sentinel, or `Nothing`)
the round trip `listToMaybe (maybeToList m)` returns `m`. -/
theorem maybeToList_round_trip (x m : JSVal) (h : validMaybe m = true) :
    Maybe.maybeToList (.just x) = .ok [x] ∧
    Maybe.maybeToList .nothingObj = .ok ([] : List JSVal) ∧
    (Maybe.maybeToList m).map Maybe.listToMaybe = .ok m := by
  refine ⟨rfl, rfl, ?_⟩
  cases m <;>
    simp_all [validMaybe, Maybe.maybeToList, Maybe.isJust, Maybe.fromJust,
      bind, Maybe.listToMaybe, Maybe, Except.map]

/-- Witness for C6 at `m = Just 1`. -/
theorem maybeToList_round_trip_witness :
    (Maybe.maybeToList (.just (.num 1))).map Maybe.listToMaybe
      = .ok (.just (.num 1)) :=
  (maybeToList_round_trip (.num 1) (.just (.num 1)) rfl).2.2

/-- Claim C7: for every callback `fn` and sequence `seq`, `mapMaybe fn seq`
equals `catMaybes (seq.map fn)` — the unwrapped values, in original order,
of the elements whose image under `fn` is a `Just` — and on the concrete
test list `[2,4,6,null,null,12,NaN,16,18,undefined]` with the doubling
callback `fnM` it yields `[4,8,12,24,32,36]`. -/
theorem mapMaybe_eq_catMaybes_map (fn : JSVal → JSVal) (seq : List JSVal) :
    Maybe.mapMaybe fn seq = Maybe.catMaybes (seq.map fn) ∧
    Maybe.mapMaybe fnM
        [.num 2, .num 4, .num 6, .vnull, .vnull, .num 12, .vnan,
         .num 16, .num 18, .vundefined]
      = .ok [.num 4, .num 8, .num 12, .num 24, .num 32, .num 36] := by
  refine ⟨?_, rfl⟩
  induction seq with
  | nil => rfl
  | cons x xs ih =>
    simp only [Maybe.mapMaybe, Maybe.catMaybes, List.map_cons,
      List.filter_cons, ternary_true_false] at ih ⊢
    by_cases h : Maybe.isJust (fn x) = true
    · simp [h, arrayMapE, ih]
    · simp [h, ih]

/-- Claim C2, counterexample: `fromJust` is not the only operation that can
signal a hard failure; at the concrete input `fmap (· * 100) (Just 2)` the
code throws a `TypeError`, because it calls `.map` on the numeric payload. -/
theorem fmap_throws_on_number :
    Maybe.fmap (jsTimes 100) (.just (.num 2))
      = .error "TypeError: x.map is not a function" :=
  rfl

/-- Claim C2 as amended: `fromJust (Just x)` returns the payload `x`, and
`fromJust Nothing` throws the diagnostic string
`"[object Object] is Nothing"` identifying the value as `Nothing`.
`fromJust` is not the only operation that can signal a hard failure: `fmap`
throws a `TypeError` when the payload of a `Just` is not an array.  The
remaining operations are total on Maybe inputs: `fromMaybe` and
`maybeToList` never throw on a Maybe argument; `maybe` never throws on a
Maybe argument when its callback returns normally; `listToMaybe` always
returns one of the two variants; `catMaybes` never throws on an array of
Maybes; `mapMaybe` never throws when the callback returns Maybes; `bind`
never throws on a Maybe receiver; and `chain` never throws on a Maybe
receiver whose callback returns normally. -/
theorem fromJust_extraction :
    (∀ x, Maybe.fromJust (.just x) = .ok x) ∧
    Maybe.fromJust .nothingObj = .error "[object Object] is Nothing" ∧
    (∀ fn x, (∀ xs, x ≠ .arr xs) →
      ∃ e, Maybe.fmap fn (.just x) = .error e) ∧
    (∀ b m, isMaybeVal m = true → ∃ r, Maybe.fromMaybe b m = .ok r) ∧
    (∀ m, isMaybeVal m = true → ∃ l, Maybe.maybeToList m = .ok l) ∧
    (∀ b fn m, isMaybeVal m = true → (∀ v, ∃ r, fn v = .ok r) →
      ∃ r, Maybe.maybe b fn m = .ok r) ∧
    (∀ l, Maybe.listToMaybe l = .nothingObj ∨
      ∃ v, Maybe.listToMaybe l = .just v) ∧
    (∀ a, (∀ x ∈ a, isMaybeVal x = true) →
      ∃ l, Maybe.catMaybes a = .ok l) ∧
    (∀ fn a, (∀ x ∈ a, isMaybeVal (fn x) = true) →
      ∃ l, Maybe.mapMaybe fn a = .ok l) ∧
    (∀ m fn, isMaybeVal m = true → ∃ r, bind m fn = .ok r) ∧
    (∀ m fn r, isMaybeVal m = true → fn m = .ok r →
      ∃ u, chain m fn = .ok u) := by
  refine ⟨fromJust_just,
    by simp [Maybe.fromJust, Maybe.isJust, Maybe.isNothing, jsToString],
    fun fn x h => ?_, fun b m h => ?_, fun m h => ?_, fun b fn m h hfn => ?_,
    fun l => ?_, fun a h => ?_, fun fn a h => ?_,
    fun m fn h => ?_, fun m fn r h hfn => ?_⟩
  · cases x with
    | arr l => exact absurd rfl (h l)
    | vnull => exact ⟨_, rfl⟩
    | vundefined => exact ⟨_, rfl⟩
    | vnan => exact ⟨_, rfl⟩
    | num _ => exact ⟨_, rfl⟩
    | str _ => exact ⟨_, rfl⟩
    | bool _ => exact ⟨_, rfl⟩
    | just _ => exact ⟨_, rfl⟩
    | nothingObj => exact ⟨_, rfl⟩
  · rcases isMaybeVal_cases m h with rfl | ⟨v, rfl⟩
    · exact ⟨b, rfl⟩
    · exact ⟨v, rfl⟩
  · rcases isMaybeVal_cases m h with rfl | ⟨v, rfl⟩
    · exact ⟨[], rfl⟩
    · exact ⟨[v], rfl⟩
  · rcases isMaybeVal_cases m h with rfl | ⟨v, rfl⟩
    · exact ⟨b, rfl⟩
    · obtain ⟨r, hr⟩ := hfn v
      exact ⟨r, by rw [maybe_just]; exact hr⟩
  · cases l with
    | nil => exact Or.inl rfl
    | cons x xs =>
      by_cases hx : isAbsent x = true
      · exact Or.inl (by simp [Maybe.listToMaybe, Maybe, hx])
      · exact Or.inr ⟨x, by simp [Maybe.listToMaybe, Maybe, hx]⟩
  · refine arrayMapE_ok_of_ok _ _ (fun x hx => ?_)
    have hj : Maybe.isJust x = true := by
      have := List.of_mem_filter hx
      simpa using this
    obtain ⟨v, rfl⟩ := (isJust_iff x).mp hj
    exact ⟨v, rfl⟩
  · refine arrayMapE_ok_of_ok _ _ (fun x hx => ?_)
    have hj : Maybe.isJust (fn x) = true := by
      have := List.of_mem_filter hx
      simpa using this
    obtain ⟨v, hv⟩ := (isJust_iff (fn x)).mp hj
    exact ⟨v, by rw [hv]; exact fromJust_just v⟩
  · rcases isMaybeVal_cases m h with rfl | ⟨v, rfl⟩
    · exact ⟨.nothingObj, rfl⟩
    · cases hr : fn (.just v) v with
      | ok s => exact ⟨s, by simp [bind, hr]⟩
      | error e => exact ⟨.nothingObj, by simp [bind, hr]⟩
  · rcases isMaybeVal_cases m h with rfl | ⟨v, rfl⟩
    · exact ⟨.nothingObj, rfl⟩
    · exact ⟨r, by simpa [chain] using hfn⟩

/-- Witness for C2: extraction from `Just 7`, the `fmap` failure clause at
the payload `2`, and the totality clauses at concrete Maybe inputs. -/
theorem fromJust_extraction_witness :
    Maybe.fromJust (.just (.num 7)) = .ok (.num 7) ∧
    (∃ e, Maybe.fmap (fun v => v) (.just (.num 2)) = .error e) ∧
    (∃ r, Maybe.fromMaybe (.num 0) .nothingObj = .ok r) ∧
    (∃ l, Maybe.maybeToList (.just (.num 1)) = .ok l) ∧
    (∃ r, Maybe.maybe (.num 0) (fun v => .ok v) (.just (.num 1)) = .ok r) ∧
    (∃ l, Maybe.catMaybes [.just (.num 5), .nothingObj] = .ok l) ∧
    (∃ l, Maybe.mapMaybe (fun v => Maybe v) [.num 5, .vnull] = .ok l) ∧
    (∃ r, bind .nothingObj (fun _this _v => .error "boom") = .ok r) ∧
    (∃ u, chain (.just (.num 1)) (fun _this => .ok .vnull) = .ok u) :=
  ⟨fromJust_extraction.1 (.num 7),
   fromJust_extraction.2.2.1 (fun v => v) (.num 2)
     (fun _xs hx => JSVal.noConfusion hx),
   fromJust_extraction.2.2.2.1 (.num 0) .nothingObj rfl,
   fromJust_extraction.2.2.2.2.1 (.just (.num 1)) rfl,
   fromJust_extraction.2.2.2.2.2.1 (.num 0) (fun v => .ok v) (.just (.num 1))
     rfl (fun v => ⟨v, rfl⟩),
   fromJust_extraction.2.2.2.2.2.2.2.1 [.just (.num 5), .nothingObj]
     (by simp [isMaybeVal, Maybe.isJust, Maybe.isNothing]),
   fromJust_extraction.2.2.2.2.2.2.2.2.1 (fun v => Maybe v) [.num 5, .vnull]
     (by simp [isMaybeVal, Maybe.isJust, Maybe.isNothing, Maybe, isAbsent,
       jsEqNull, jsEqUndefined, jsSelfUnequal]),
   fromJust_extraction.2.2.2.2.2.2.2.2.2.1 .nothingObj
     (fun _this _v => .error "boom") rfl,
   fromJust_extraction.2.2.2.2.2.2.2.2.2.2 (.just (.num 1))
     (fun _this => .ok .vnull) .vnull rfl rfl⟩

end MonadJS
